import Mathlib

set_option maxHeartbeats 1000000

/-!
Shallow embedding of `src/services/configService.js` from the
gemini-proxy-panel repository, together with theorems settling the frozen
claims about it.

Modelling conventions:
* JavaScript numbers are modelled as rationals (`ℚ`); `NaN`/`Infinity` and
  floating-point rounding are outside the model.
* The sqlite backing store (`db` from `../db`, out of scope per the spec's
  §1) is modelled as pure association-list state with the per-statement
  semantics the code relies on: upsert for `INSERT OR REPLACE`, a
  unique-key violation for plain `INSERT` on an existing primary key, and
  affected-row counts for `UPDATE`/`DELETE`.
* `JSON.stringify`/`JSON.parse` (JavaScript builtins) are modelled by an
  executable printer and parser over a JSON tree whose numbers are
  integers (fraction/exponent syntax is outside the model).
* The sync collaborator `syncToGitHub` (also from `../db`) is modelled from
  the spec: each mutating operation takes the outcome the collaborator
  would produce (`Except JsError Unit`) and the operation records in a
  trace whether the store was written and whether sync was invoked.
-/

namespace CS

/-- JSON value tree. Numbers are restricted to integers (the JS code under
verification only ever writes integral numbers into JSON). -/
inductive Json where
  | null
  | bool (b : Bool)
  | num (n : Int)
  | str (s : String)
  | arr (elems : List Json)
  | obj (fields : List (String × Json))

/-- Decimal digit to character. -/
def digitCh (d : Nat) : Char := Char.ofNat (48 + d)

/-- Hex digit to lowercase character. -/
def hexCh (d : Nat) : Char := if d < 10 then Char.ofNat (48 + d) else Char.ofNat (87 + d)

/-- Base-10 digits of `n`, least significant first, with explicit fuel so
the kernel can evaluate it (`Nat.digits` is well-founded and does not
reduce); `digitsRev n n` agrees with `Nat.digits 10 n`. -/
def digitsRev : Nat → Nat → List Nat
  | 0, _ => []
  | fuel + 1, n => if n = 0 then [] else n % 10 :: digitsRev fuel (n / 10)

/-- Decimal printing of a natural number, most significant digit first. -/
def natPrint (n : Nat) : List Char :=
  if n = 0 then ['0'] else (digitsRev n n).reverse.map digitCh

/-- Decimal printing of an integer, as JavaScript `String(n)` prints it. -/
def intPrint (n : Int) : List Char :=
  if n < 0 then '-' :: natPrint n.natAbs else natPrint n.natAbs

/-- JSON string escaping of one character, as `JSON.stringify` emits it. -/
def escCh (c : Char) : List Char :=
  if c = '"' then ['\\', '"']
  else if c = '\\' then ['\\', '\\']
  else if c = '\x08' then ['\\', 'b']
  else if c = '\x09' then ['\\', 't']
  else if c = '\x0a' then ['\\', 'n']
  else if c = '\x0c' then ['\\', 'f']
  else if c = '\x0d' then ['\\', 'r']
  else if c.toNat < 32 then ['\\', 'u', '0', '0', hexCh (c.toNat / 16), hexCh (c.toNat % 16)]
  else [c]

/-- JSON string escaping of a character list. -/
def escList : List Char → List Char
  | [] => []
  | c :: cs => escCh c ++ escList cs

mutual

/-- `JSON.stringify` (no whitespace), character-list form. -/
def printJson : Json → List Char
  | .num n => intPrint n
  | .bool b => if b then ['t', 'r', 'u', 'e'] else ['f', 'a', 'l', 's', 'e']
  | .null => ['n', 'u', 'l', 'l']
  | .str s => '"' :: (escList s.data ++ ['"'])
  | .arr [] => ['[', ']']
  | .arr (x :: xs) => '[' :: (printJson x ++ printElems xs ++ [']'])
  | .obj [] => ['\x7b', '\x7d']
  | .obj (f :: fs) => '\x7b' :: (printField f ++ printFields fs ++ ['\x7d'])

/-- Remaining array elements, each preceded by a comma. -/
def printElems : List Json → List Char
  | [] => []
  | x :: xs => ',' :: (printJson x ++ printElems xs)

/-- One object field: quoted key, colon, value. -/
def printField : String × Json → List Char
  | (k, v) => '"' :: (escList k.data ++ ['"', ':'] ++ printJson v)

/-- Remaining object fields, each preceded by a comma. -/
def printFields : List (String × Json) → List Char
  | [] => []
  | f :: fs => ',' :: (printField f ++ printFields fs)

end

/-- `JSON.stringify` as a String-valued function. -/
def printJsonStr (j : Json) : String := ⟨printJson j⟩

/-- Whitespace accepted by the JSON grammar. -/
def isWsCh (c : Char) : Bool := c == ' ' || c == '\t' || c == '\n' || c == '\r'

/-- Skip leading JSON whitespace. -/
def skipWs : List Char → List Char
  | [] => []
  | c :: cs => if isWsCh c then skipWs cs else c :: cs

/-- Value of a hex digit character, if it is one. -/
def hexVal (c : Char) : Option Nat :=
  if c.isDigit then some (c.toNat - 48)
  else if 'a' ≤ c && c ≤ 'f' then some (c.toNat - 87)
  else if 'A' ≤ c && c ≤ 'F' then some (c.toNat - 55)
  else none

/-- Decoding of a single-character JSON escape. -/
def escDecode (e : Char) : Option Char :=
  if e = '"' then some '"'
  else if e = '\\' then some '\\'
  else if e = '/' then some '/'
  else if e = 'b' then some '\x08'
  else if e = 'f' then some '\x0c'
  else if e = 'n' then some '\x0a'
  else if e = 'r' then some '\x0d'
  else if e = 't' then some '\x09'
  else none

/-- Parse the body of a JSON string after the opening quote; returns the
decoded characters and the input after the closing quote. -/
def parseStringBody : List Char → Option (List Char × List Char)
  | [] => none
  | c :: cs =>
    if c == '"' then some ([], cs)
    else if c == '\\' then
      match cs with
      | [] => none
      | e :: cs2 =>
        if e == 'u' then
          match cs2 with
          | h1 :: h2 :: h3 :: h4 :: cs3 =>
            match hexVal h1, hexVal h2, hexVal h3, hexVal h4 with
            | some a, some b, some c3, some d =>
              (parseStringBody cs3).map
                (fun p => (Char.ofNat (4096 * a + 256 * b + 16 * c3 + d) :: p.1, p.2))
            | _, _, _, _ => none
          | _ => none
        else
          match escDecode e with
          | some c2 => (parseStringBody cs2).map (fun p => (c2 :: p.1, p.2))
          | none => none
    else if c.toNat < 32 then none
    else (parseStringBody cs).map (fun p => (c :: p.1, p.2))

/-- Consume a run of decimal digits, folding them onto an accumulator. -/
def parseDigitsAux (acc : Nat) : List Char → Nat × List Char
  | [] => (acc, [])
  | c :: cs =>
    if c.isDigit then parseDigitsAux (acc * 10 + (c.toNat - 48)) cs else (acc, c :: cs)

/-- Parse a (integral) JSON number. -/
def parseNumber : List Char → Option (Int × List Char)
  | [] => none
  | c :: cs =>
    if c == '-' then
      match cs with
      | [] => none
      | c2 :: cs2 =>
        if c2.isDigit then
          let p := parseDigitsAux (c2.toNat - 48) cs2
          some (-(p.1 : Int), p.2)
        else none
    else if c.isDigit then
      let p := parseDigitsAux (c.toNat - 48) cs
      some ((p.1 : Int), p.2)
    else none

/-- Expect a literal run of characters, returning the input after it. -/
def dropLit : List Char → List Char → Option (List Char)
  | [], cs => some cs
  | p :: ps, c :: cs => if c == p then dropLit ps cs else none
  | _ :: _, [] => none

/-- Does the input start with the given character? -/
def headIs (l : List Char) (c : Char) : Bool :=
  match l with
  | [] => false
  | c2 :: _ => c2 == c

mutual

/-- Fuel-indexed JSON value parser. -/
def pVal : Nat → List Char → Option (Json × List Char)
  | 0, _ => none
  | f + 1, cs =>
    match skipWs cs with
    | [] => none
    | c :: rest =>
      if c == 'n' then (dropLit ['u', 'l', 'l'] rest).map (fun r => (Json.null, r))
      else if c == 't' then (dropLit ['r', 'u', 'e'] rest).map (fun r => (Json.bool true, r))
      else if c == 'f' then (dropLit ['a', 'l', 's', 'e'] rest).map (fun r => (Json.bool false, r))
      else if c == '"' then (parseStringBody rest).map (fun p => (Json.str ⟨p.1⟩, p.2))
      else if c == '[' then
        if headIs (skipWs rest) ']' then some (Json.arr [], (skipWs rest).tail)
        else (pElems f (skipWs rest)).map (fun p => (Json.arr p.1, p.2))
      else if c == '\x7b' then
        if headIs (skipWs rest) '\x7d' then some (Json.obj [], (skipWs rest).tail)
        else (pFields f (skipWs rest)).map (fun p => (Json.obj p.1, p.2))
      else (parseNumber (c :: rest)).map (fun p => (Json.num p.1, p.2))

/-- Fuel-indexed parser for one-or-more array elements up to `]`. -/
def pElems : Nat → List Char → Option (List Json × List Char)
  | 0, _ => none
  | f + 1, cs =>
    match pVal f cs with
    | none => none
    | some (x, r) =>
      if headIs (skipWs r) ',' then
        match pElems f (skipWs r).tail with
        | some (xs, r3) => some (x :: xs, r3)
        | none => none
      else if headIs (skipWs r) ']' then some ([x], (skipWs r).tail)
      else none

/-- Fuel-indexed parser for one-or-more object fields up to the closing
brace. -/
def pFields : Nat → List Char → Option (List (String × Json) × List Char)
  | 0, _ => none
  | f + 1, cs =>
    match skipWs cs with
    | '"' :: r =>
      match parseStringBody r with
      | none => none
      | some (kcs, r2) =>
        if headIs (skipWs r2) ':' then
          match pVal f (skipWs r2).tail with
          | none => none
          | some (v, r4) =>
            if headIs (skipWs r4) ',' then
              match pFields f (skipWs r4).tail with
              | some (fs, r6) => some ((⟨kcs⟩, v) :: fs, r6)
              | none => none
            else if headIs (skipWs r4) '\x7d' then some ([(⟨kcs⟩, v)], (skipWs r4).tail)
            else none
        else none
    | _ => none

end

/-- `JSON.parse`: parse a complete JSON document (integral numbers only),
returning `none` where the builtin would throw. -/
def jsonParse (s : String) : Option Json :=
  match pVal (s.length + 1) s.data with
  | some (j, rest) => if (skipWs rest).isEmpty then some j else none
  | none => none

/-- First-match association-list lookup (primary-key `SELECT`). -/
def lookupA : List (String × α) → String → Option α
  | [], _ => none
  | (k2, v) :: t, k => if k2 == k then some v else lookupA t k

/-- `INSERT OR REPLACE` keyed by primary key. -/
def upsert : List (String × α) → String → α → List (String × α)
  | [], k, v => [(k, v)]
  | (k2, v2) :: t, k, v => if k2 == k then (k, v) :: t else (k2, v2) :: upsert t k v

/-- `DELETE ... WHERE key = ?`: the remaining rows and the affected-row
count. -/
def eraseA : List (String × α) → String → List (String × α) × Nat
  | [], _ => ([], 0)
  | (k2, v2) :: t, k =>
    let p := eraseA t k
    if k2 == k then (p.1, p.2 + 1) else ((k2, v2) :: p.1, p.2)

/-- `UPDATE ... WHERE key = ?`: the updated rows and the affected-row
count. -/
def updateA : List (String × α) → String → (α → α) → List (String × α) × Nat
  | [], _, _ => ([], 0)
  | (k2, v2) :: t, k, g =>
    let p := updateA t k g
    if k2 == k then ((k2, g v2) :: p.1, p.2 + 1) else ((k2, v2) :: p.1, p.2)

/-- Number of rows with the given primary key. -/
def countKey (l : List (String × α)) (k : String) : Nat :=
  (l.filter (fun p => p.1 == k)).length

/-- The input after a printed number must not continue with a digit; this
holds at every place the round-trip lemmas use. -/
def noDigitHead : List Char → Bool
  | [] => true
  | c :: _ => !c.isDigit

/-- Characters that can start a printed JSON value. -/
def goodStart (c : Char) : Bool :=
  c == 'n' || c == 't' || c == 'f' || c == '"' || c == '[' || c == '\x7b' ||
    c == '-' || c.isDigit

mutual

/-- Fuel needed by `pVal` to parse the printed form of a value. -/
def costJson : Json → Nat
  | .null => 1
  | .bool _ => 1
  | .num _ => 1
  | .str _ => 1
  | .arr xs => 1 + costElems xs
  | .obj fs => 1 + costFields fs

/-- Fuel needed by `pElems` for the printed elements. -/
def costElems : List Json → Nat
  | [] => 0
  | x :: xs => 1 + costJson x + costElems xs

/-- Fuel needed by `pFields` for the printed fields. -/
def costFields : List (String × Json) → Nat
  | [] => 0
  | f :: fs => 1 + costJson f.2 + costFields fs

end

/-- JavaScript values as they flow in and out of the settings store:
`vobj`/`varr` are the non-null values of `typeof v` equal to `object`;
numbers are integral (see `Json.num`). -/
inductive JsValue where
  | vundefined
  | vnull
  | vbool (b : Bool)
  | vnum (n : Int)
  | vstr (s : String)
  | vobj (fields : List (String × Json))
  | varr (elems : List Json)

/-- The result of `JSON.parse`, seen as a JavaScript value. -/
def jsonToJs : Json → JsValue
  | .null => .vnull
  | .bool b => .vbool b
  | .num n => .vnum n
  | .str s => .vstr s
  | .arr xs => .varr xs
  | .obj fs => .vobj fs

/-- JavaScript property access `v?.k` on a parsed value, as an optional
JSON field value (`none` stands for `undefined`). -/
def jsGet (v : JsValue) (k : String) : Option Json :=
  match v with
  | .vobj fs => lookupA fs k
  | _ => none

/-- A JavaScript error: sqlite driver errors carry a `code`
(e.g. `SQLITE_CONSTRAINT`); errors built with `new Error(msg)` do not. -/
structure JsError where
  code : Option String
  message : String
deriving DecidableEq, Repr

/-- Row of the `models_config` table. -/
structure ModelRow where
  category : String
  daily_quota : Option ℚ
  individual_quota : Option ℚ
deriving DecidableEq, Repr

/-- Row of the `worker_keys` table. `safety_enabled` is the raw stored
value (an integer or NULL). -/
structure WorkerRow where
  description : String
  safety_enabled : Option Int
  created_at : String
deriving DecidableEq, Repr

/-- The backing store: the three tables used by configService, keyed by
their primary keys. -/
structure Db where
  settings : List (String × String)
  models_config : List (String × ModelRow)
  worker_keys : List (String × WorkerRow)
deriving DecidableEq, Repr

/-- Externally observable storage/sync activity of one operation:
`write` is an executed mutating SQL statement, `sync` an invocation of
the sync collaborator. -/
inductive DbAction where
  | write
  | sync
deriving DecidableEq, Repr

instance : DecidableEq (Except JsError Unit) := fun a b =>
  match a, b with
  | .ok u, .ok v =>
    isTrue (by cases u; cases v; rfl)
  | .ok _, .error _ => isFalse (fun h => by cases h)
  | .error _, .ok _ => isFalse (fun h => by cases h)
  | .error e1, .error e2 =>
    if h : e1 = e2 then isTrue (by rw [h]) else isFalse (fun hh => by cases hh; exact h rfl)

/-- Outcome of one mutating configService operation: the settled promise,
the store afterwards, and the trace of storage writes and sync
invocations in order. -/
structure MutOut where
  result : Except JsError Unit
  db : Db
  trace : List DbAction
deriving DecidableEq

/-- Did the returned promise resolve rather than reject? -/
def isOkE : Except JsError Unit → Bool
  | .ok _ => true
  | .error _ => false

/-- Modelled from the spec: the Sync Trigger (`syncToGitHub` in `../db`,
whose body is outside `src/`) is an opaque collaborator that either
succeeds or fails; each mutating operation below is parametrised by the
outcome `sync` the collaborator would produce when invoked. -/
def SyncOutcome : Type := Except JsError Unit

/-- Shared tail of the mutators that end in `await syncToGitHub()`:
record the invocation and propagate its failure. -/
def andSync (st : Db) (sync : SyncOutcome) (tr : List DbAction) : MutOut :=
  match sync with
  | .ok _ => ⟨.ok (), st, tr ++ [.sync]⟩
  | .error e => ⟨.error e, st, tr ++ [.sync]⟩

/-- `getSetting(key, defaultValue)`. -/
def getSetting (st : Db) (key : String) (defaultValue : JsValue) : JsValue :=
  match lookupA st.settings key with
  | none => defaultValue
  | some s =>
    match jsonParse s with
    | some j => jsonToJs j
    | none => .vstr s

/-- `String(value)` for the non-object branch of `setSetting`, plus the
`JSON.stringify` branch for objects and arrays. -/
def valueToStore : JsValue → String
  | .vobj fs => printJsonStr (.obj fs)
  | .varr xs => printJsonStr (.arr xs)
  | .vstr s => s
  | .vnum n => ⟨intPrint n⟩
  | .vbool true => "true"
  | .vbool false => "false"
  | .vnull => "null"
  | .vundefined => "undefined"

/-- `setSetting(key, value, skipSync)`. -/
def setSetting (st : Db) (sync : SyncOutcome) (key : String) (value : JsValue)
    (skipSync : Bool) : MutOut :=
  let st2 : Db := { st with settings := upsert st.settings key (valueToStore value) }
  if skipSync then ⟨.ok (), st2, [.write]⟩
  else andSync st2 sync [.write]

/-- Logical model-config record as `getModelsConfig` returns it (`none`
stands for the JavaScript `undefined` produced from a NULL column). -/
structure ModelCfg where
  category : String
  dailyQuota : Option ℚ
  individualQuota : Option ℚ
deriving DecidableEq, Repr

/-- `getModelsConfig()`. -/
def getModelsConfig (st : Db) : List (String × ModelCfg) :=
  st.models_config.map (fun p => (p.1, ⟨p.2.category, p.2.daily_quota, p.2.individual_quota⟩))

/-- `Number.isInteger` applied to a normalized quota (`none` is the
JavaScript `null`, and `Number.isInteger(null)` is `false`). -/
def jsIsInteger : Option ℚ → Bool
  | none => false
  | some q => q.den == 1

/-- The JavaScript comparison `x < 0` on a normalized quota (`null < 0`
is `false`). -/
def jsLtZero : Option ℚ → Bool
  | none => false
  | some q => decide (q < 0)

/-- First validation condition of `setModelConfig` (source line 146),
with the source's operator precedence reproduced exactly. -/
def dailyQuotaBad (category : String) (dq : Option ℚ) : Bool :=
  (category == "Custom" && dq.isSome && !jsIsInteger dq) || jsLtZero dq

/-- Second validation condition of `setModelConfig` (source line 149). -/
def individualQuotaBad (category : String) (iq : Option ℚ) : Bool :=
  ((category == "Pro" || category == "Flash") && iq.isSome && !jsIsInteger iq) || jsLtZero iq

/-- `setModelConfig(modelId, category, dailyQuota, individualQuota)`.
Quota arguments arrive already collapsed: `none` covers the JavaScript
`undefined` and `null` (both become a NULL column), `some q` a number. -/
def setModelConfig (st : Db) (sync : SyncOutcome) (modelId category : String)
    (dailyQuota individualQuota : Option ℚ) : MutOut :=
  if dailyQuotaBad category dailyQuota then
    ⟨.error ⟨none, "Custom model dailyQuota must be a non-negative integer or null."⟩, st, []⟩
  else if individualQuotaBad category individualQuota then
    ⟨.error ⟨none, "Pro/Flash model individualQuota must be a non-negative integer or null."⟩,
      st, []⟩
  else
    andSync
      { st with models_config :=
          upsert st.models_config modelId ⟨category, dailyQuota, individualQuota⟩ }
      sync [.write]

/-- `deleteModelConfig(modelId)`. -/
def deleteModelConfig (st : Db) (sync : SyncOutcome) (modelId : String) : MutOut :=
  let p := eraseA st.models_config modelId
  if p.2 == 0 then
    ⟨.error ⟨none, "Model '" ++ modelId ++ "' not found for deletion."⟩, st, [.write]⟩
  else andSync { st with models_config := p.1 } sync [.write]

/-- Result record of `getCategoryQuotas`. -/
structure CatQuotas where
  proQuota : Int
  flashQuota : Int
deriving DecidableEq, Repr

/-- The ternary `typeof x === 'number' ? x : d` applied to an optional
JSON field value. -/
def numOrDefault (o : Option Json) (d : Int) : Int :=
  match o with
  | some (.num n) => n
  | _ => d

/-- `getCategoryQuotas()`. -/
def getCategoryQuotas (st : Db) : CatQuotas :=
  let quotas := getSetting st "category_quotas"
    (.vobj [("proQuota", .num 50), ("flashQuota", .num 1500)])
  { proQuota := numOrDefault (jsGet quotas "proQuota") 50,
    flashQuota := numOrDefault (jsGet quotas "flashQuota") 1500 }

/-- `setCategoryQuotas(proQuota, flashQuota)`. An argument is `some q`
when it is a JavaScript number (`typeof x === 'number'`) and `none`
for any non-number value. -/
def setCategoryQuotas (st : Db) (sync : SyncOutcome)
    (proQuota flashQuota : Option ℚ) : MutOut :=
  match proQuota, flashQuota with
  | some p, some f =>
    if p < 0 || f < 0 then
      ⟨.error ⟨none, "Quotas must be non-negative numbers."⟩, st, []⟩
    else
      setSetting st sync "category_quotas"
        (.vobj [("proQuota", .num (Rat.floor p)), ("flashQuota", .num (Rat.floor f))]) false
  | _, _ => ⟨.error ⟨none, "Quotas must be non-negative numbers."⟩, st, []⟩

/-- Entry of the `getAllWorkerKeys` result. -/
structure WorkerKeyInfo where
  key : String
  description : String
  safetyEnabled : Bool
  createdAt : String
deriving DecidableEq, Repr

/-- `getAllWorkerKeys()` (modulo the `ORDER BY created_at DESC` row
order, which no claim depends on). -/
def getAllWorkerKeys (st : Db) : List WorkerKeyInfo :=
  st.worker_keys.map (fun p =>
    ⟨p.1, p.2.description, p.2.safety_enabled == some 1, p.2.created_at⟩)

/-- `getWorkerKeySafetySetting(apiKey)`. -/
def getWorkerKeySafetySetting (st : Db) (apiKey : String) : Bool :=
  match lookupA st.worker_keys apiKey with
  | some row => row.safety_enabled == some 1
  | none => true

/-- The `catch` clause of `addWorkerKey`: a unique-constraint violation
becomes a domain error, every other error is re-thrown unchanged. -/
def addWorkerKeyCatch (apiKey : String) (e : JsError) : JsError :=
  if e.code == some "SQLITE_CONSTRAINT" then
    ⟨none, "Worker key '" ++ apiKey ++ "' already exists."⟩
  else e

/-- `addWorkerKey(apiKey, description)`. `now` is the storage-assigned
`CURRENT_TIMESTAMP`. A plain `INSERT` on an existing primary key fails
with a `SQLITE_CONSTRAINT`-coded error, which the `catch` translates;
a sync failure also passes through the same `catch`. -/
def addWorkerKey (st : Db) (sync : SyncOutcome) (apiKey description now : String) : MutOut :=
  if (lookupA st.worker_keys apiKey).isSome then
    ⟨.error (addWorkerKeyCatch apiKey
        ⟨some "SQLITE_CONSTRAINT", "UNIQUE constraint failed: worker_keys.api_key"⟩),
      st, [.write]⟩
  else
    let st2 : Db :=
      { st with worker_keys := st.worker_keys ++ [(apiKey, ⟨description, some 1, now⟩)] }
    match sync with
    | .ok _ => ⟨.ok (), st2, [.write, .sync]⟩
    | .error e => ⟨.error (addWorkerKeyCatch apiKey e), st2, [.write, .sync]⟩

/-- `updateWorkerKeySafety(apiKey, safetyEnabled)`. -/
def updateWorkerKeySafety (st : Db) (sync : SyncOutcome) (apiKey : String)
    (safetyEnabled : Bool) : MutOut :=
  let p := updateA st.worker_keys apiKey
    (fun r => { r with safety_enabled := some (if safetyEnabled then 1 else 0) })
  if p.2 == 0 then
    ⟨.error ⟨none, "Worker key '" ++ apiKey ++ "' not found for updating safety settings."⟩,
      st, [.write]⟩
  else andSync { st with worker_keys := p.1 } sync [.write]

/-- `deleteWorkerKey(apiKey)`. The source performs no sync invocation
here, so the function does not consult the sync collaborator at all. -/
def deleteWorkerKey (st : Db) (apiKey : String) : MutOut :=
  let p := eraseA st.worker_keys apiKey
  if p.2 == 0 then
    ⟨.error ⟨none, "Worker key '" ++ apiKey ++ "' not found for deletion."⟩, st, [.write]⟩
  else ⟨.ok (), { st with worker_keys := p.1 }, [.write]⟩

/-- `getGitHubConfig()`. -/
def getGitHubConfig (st : Db) : JsValue :=
  getSetting st "github_config"
    (.vobj [("repo", .str ""), ("token", .str ""), ("dbPath", .str "./database.db"),
      ("encryptKey", .null)])

/-- `setGitHubConfig(repo, token, dbPath, encryptKey)`. -/
def setGitHubConfig (st : Db) (sync : SyncOutcome) (repo token dbPath : String)
    (encryptKey : Option String) : MutOut :=
  setSetting st sync "github_config"
    (.vobj [("repo", .str repo), ("token", .str token), ("dbPath", .str dbPath),
      ("encryptKey", match encryptKey with | some s => .str s | none => .null)]) false

/-- Stores whose `models_config` table is reachable from an empty one by
any sequence of `setModelConfig` calls (with any sync outcomes),
keeping whatever the final store of each call is — also after a failed
sync, since the row is written before sync runs. -/
inductive ReachableModels : Db → Prop where
  | init (settings : List (String × String)) (workerKeys : List (String × WorkerRow)) :
      ReachableModels ⟨settings, [], workerKeys⟩
  | step (st : Db) (sync : SyncOutcome) (modelId category : String)
      (dq iq : Option ℚ) : ReachableModels st →
      ReachableModels (setModelConfig st sync modelId category dq iq).db

/-! ### Round-trip of the JSON printer and parser -/

theorem digitsRev_eq_digits : ∀ (fuel n : Nat), n ≤ fuel → digitsRev fuel n = Nat.digits 10 n := by
  intro fuel
  induction fuel with
  | zero =>
    intro n hn
    interval_cases n
    simp [digitsRev]
  | succ f ih =>
    intro n hn
    by_cases h0 : n = 0
    · subst h0; simp [digitsRev]
    · rw [digitsRev, if_neg h0, ih (n / 10) ?_, ← Nat.digits_def' (by norm_num) (Nat.pos_of_ne_zero h0)]
      have : n / 10 < n := Nat.div_lt_self (Nat.pos_of_ne_zero h0) (by norm_num)
      omega

theorem digitCh_facts {d : Nat} (hd : d < 10) :
    (digitCh d).isDigit = true ∧ (digitCh d).toNat - 48 = d ∧ isWsCh (digitCh d) = false ∧
      ((digitCh d == 'n') = false ∧ (digitCh d == 't') = false ∧ (digitCh d == 'f') = false ∧
       (digitCh d == '"') = false ∧ (digitCh d == '[') = false ∧ (digitCh d == '\x7b') = false ∧
       (digitCh d == '-') = false) := by
  interval_cases d <;> exact ⟨by decide, by decide, by decide, by decide, by decide, by decide,
    by decide, by decide, by decide, by decide⟩

theorem isDigit_beq_false {c e : Char} (hc : c.isDigit = true) (he : e.isDigit = false) :
    (c == e) = false := by
  cases hb : c == e
  · rfl
  · rw [eq_of_beq hb] at hc
    rw [hc] at he
    cases he

theorem parseDigitsAux_append : ∀ (es : List Nat) (acc : Nat) (rest : List Char),
    (∀ d ∈ es, d < 10) → noDigitHead rest = true →
    parseDigitsAux acc (es.map digitCh ++ rest) = (es.foldl (fun a d => a * 10 + d) acc, rest) := by
  intro es
  induction es with
  | nil =>
    intro acc rest _ hrest
    cases rest with
    | nil => rfl
    | cons c t =>
      simp only [noDigitHead, Bool.not_eq_true'] at hrest
      simp [parseDigitsAux, hrest]
  | cons d es ih =>
    intro acc rest hlt hrest
    have hd : d < 10 := hlt d (by simp)
    obtain ⟨h1, h2, -⟩ := digitCh_facts hd
    simp only [List.map_cons, List.cons_append, parseDigitsAux, h1, if_true, h2, List.append_eq]
    rw [ih _ rest (fun x hx => hlt x (by simp [hx])) hrest]
    rfl

theorem foldr_eq_ofDigits : ∀ L : List Nat,
    L.foldr (fun d a => a * 10 + d) 0 = Nat.ofDigits 10 L := by
  intro L
  induction L with
  | nil => simp [Nat.ofDigits]
  | cons d t ih =>
    rw [List.foldr_cons, ih, Nat.ofDigits_cons]
    ring

theorem natPrint_parse (n : Nat) (rest : List Char) (hrest : noDigitHead rest = true) :
    ∃ c cs, natPrint n ++ rest = c :: cs ∧ c.isDigit = true ∧
      parseDigitsAux (c.toNat - 48) cs = (n, rest) := by
  by_cases h0 : n = 0
  · subst h0
    refine ⟨'0', rest, rfl, by decide, ?_⟩
    cases rest with
    | nil => rfl
    | cons c t =>
      simp only [noDigitHead, Bool.not_eq_true'] at hrest
      simp [parseDigitsAux, hrest]
  · have hdig := digitsRev_eq_digits n n le_rfl
    have hne : Nat.digits 10 n ≠ [] := Nat.digits_ne_nil_iff_ne_zero.mpr h0
    rcases hrev : (Nat.digits 10 n).reverse with _ | ⟨e0, es⟩
    · exact absurd (by simpa using congrArg List.reverse hrev) hne
    · have hmem : ∀ d ∈ e0 :: es, d < 10 := by
        intro d hd
        refine Nat.digits_lt_base (by norm_num) (m := n) ?_
        have : d ∈ (Nat.digits 10 n).reverse := hrev ▸ hd
        simpa using this
      have he0 : e0 < 10 := hmem e0 (by simp)
      obtain ⟨hd1, hd2, -⟩ := digitCh_facts he0
      refine ⟨digitCh e0, es.map digitCh ++ rest, ?_, hd1, ?_⟩
      · rw [natPrint, if_neg h0, hdig, hrev]
        simp
      · rw [hd2, parseDigitsAux_append es e0 rest (fun d hd => hmem d (by simp [hd])) hrest]
        have : (e0 :: es).foldl (fun a d => a * 10 + d) 0 = n := by
          calc (e0 :: es).foldl (fun a d => a * 10 + d) 0
              = ((Nat.digits 10 n).reverse).foldl (fun a d => a * 10 + d) 0 := by rw [hrev]
            _ = (Nat.digits 10 n).foldr (fun d a => a * 10 + d) 0 := by rw [List.foldl_reverse]
            _ = Nat.ofDigits 10 (Nat.digits 10 n) := foldr_eq_ofDigits _
            _ = n := Nat.ofDigits_digits 10 n
        simp only [List.foldl_cons, Nat.zero_mul, Nat.zero_add] at this
        rw [this]

theorem parseNumber_intPrint (n : Int) (rest : List Char) (hrest : noDigitHead rest = true) :
    parseNumber (intPrint n ++ rest) = some (n, rest) := by
  by_cases hneg : n < 0
  · rw [intPrint, if_pos hneg]
    obtain ⟨c, cs, heq, hdig, hparse⟩ := natPrint_parse n.natAbs rest hrest
    simp only [List.cons_append, heq]
    rw [parseNumber]
    simp only [show (('-' : Char) == '-') = true from rfl, if_true]
    rw [hdig, if_pos rfl, hparse]
    simp only [Option.some.injEq, Prod.mk.injEq]
    exact ⟨by omega, trivial⟩
  · rw [intPrint, if_neg hneg]
    obtain ⟨c, cs, heq, hdig, hparse⟩ := natPrint_parse n.natAbs rest hrest
    rw [heq]
    have hcm : (c == '-') = false := isDigit_beq_false hdig (by decide)
    simp only [parseNumber, hcm, Bool.false_eq_true, if_false, hdig, if_true, hparse]
    simp only [Option.some.injEq, Prod.mk.injEq]
    exact ⟨by omega, trivial⟩

theorem hexVal_hexCh {d : Nat} (hd : d < 16) : hexVal (hexCh d) = some d := by
  interval_cases d <;> decide

theorem parseStringBody_escList : ∀ (cs rest : List Char),
    parseStringBody (escList cs ++ '"' :: rest) = some (cs, rest) := by
  intro cs
  induction cs with
  | nil =>
    intro rest
    rw [escList, List.nil_append, parseStringBody.eq_def]
    simp
  | cons c cs ih =>
    intro rest
    rw [escList, List.append_assoc]
    by_cases h1 : c = '"'
    · subst h1
      simp only [show escCh '"' = ['\\', '"'] from rfl, List.cons_append, List.nil_append]
      rw [parseStringBody.eq_def]
      simp [escDecode, ih]
    · by_cases h2 : c = '\\'
      · subst h2
        simp only [show escCh '\\' = ['\\', '\\'] from rfl, List.cons_append, List.nil_append]
        rw [parseStringBody.eq_def]
        simp [escDecode, ih]
      · by_cases h3 : c = '\x08'
        · subst h3
          simp only [show escCh '\x08' = ['\\', 'b'] from rfl, List.cons_append, List.nil_append]
          rw [parseStringBody.eq_def]
          simp [escDecode, ih]
        · by_cases h4 : c = '\x09'
          · subst h4
            simp only [show escCh '\x09' = ['\\', 't'] from rfl, List.cons_append,
              List.nil_append]
            rw [parseStringBody.eq_def]
            simp [escDecode, ih]
          · by_cases h5 : c = '\x0a'
            · subst h5
              simp only [show escCh '\x0a' = ['\\', 'n'] from rfl, List.cons_append,
                List.nil_append]
              rw [parseStringBody.eq_def]
              simp [escDecode, ih]
            · by_cases h6 : c = '\x0c'
              · subst h6
                simp only [show escCh '\x0c' = ['\\', 'f'] from rfl, List.cons_append,
                  List.nil_append]
                rw [parseStringBody.eq_def]
                simp [escDecode, ih]
              · by_cases h7 : c = '\x0d'
                · subst h7
                  simp only [show escCh '\x0d' = ['\\', 'r'] from rfl, List.cons_append,
                    List.nil_append]
                  rw [parseStringBody.eq_def]
                  simp [escDecode, ih]
                · by_cases h8 : c.toNat < 32
                  · rw [escCh, if_neg h1, if_neg h2, if_neg h3, if_neg h4, if_neg h5,
                      if_neg h6, if_neg h7, if_pos h8]
                    simp only [List.cons_append, List.nil_append]
                    rw [parseStringBody.eq_def]
                    simp only [show (('\\' : Char) == '"') = false from rfl,
                      show (('\\' : Char) == '\\') = true from rfl,
                      show (('u' : Char) == 'u') = true from rfl,
                      Bool.false_eq_true, if_false, if_true,
                      hexVal_hexCh (show c.toNat / 16 < 16 from Nat.div_lt_of_lt_mul (by omega)),
                      hexVal_hexCh (show c.toNat % 16 < 16 from Nat.mod_lt c.toNat (by norm_num)),
                      show hexVal '0' = some 0 from rfl, ih]
                    have h16 : 4096 * 0 + 256 * 0 + 16 * (c.toNat / 16) + c.toNat % 16
                        = c.toNat := by omega
                    rw [h16, Char.ofNat_toNat]
                    rfl
                  · rw [escCh, if_neg h1, if_neg h2, if_neg h3, if_neg h4, if_neg h5,
                      if_neg h6, if_neg h7, if_neg h8]
                    simp only [List.cons_append, List.nil_append]
                    rw [parseStringBody.eq_def]
                    simp only [beq_eq_false_iff_ne.mpr h1, beq_eq_false_iff_ne.mpr h2,
                      Bool.false_eq_true, if_false, if_neg h8, ih]
                    rfl

theorem isDigit_not_ws {c : Char} (h : c.isDigit = true) : isWsCh c = false := by
  cases hw : isWsCh c
  · rfl
  · simp only [isWsCh, Bool.or_eq_true, beq_iff_eq] at hw
    rcases hw with ((rfl | rfl) | rfl) | rfl <;> exact absurd h (by decide)

theorem goodStart_not_ws {c : Char} (h : goodStart c = true) : isWsCh c = false := by
  simp only [goodStart, Bool.or_eq_true, beq_iff_eq] at h
  rcases h with ((((((rfl | rfl) | rfl) | rfl) | rfl) | rfl) | rfl) | hd
  · rfl
  · rfl
  · rfl
  · rfl
  · rfl
  · rfl
  · rfl
  · exact isDigit_not_ws hd

theorem goodStart_beq_false {c e : Char} (h : goodStart c = true) (he : goodStart e = false) :
    (c == e) = false := by
  cases hb : c == e
  · rfl
  · rw [eq_of_beq hb] at h
    rw [h] at he
    cases he

theorem skipWs_not_ws {c : Char} (l : List Char) (h : isWsCh c = false) :
    skipWs (c :: l) = c :: l := by
  rw [skipWs, if_neg]
  rw [h]
  simp

theorem natPrint_head (n : Nat) : ∃ c cs, natPrint n = c :: cs ∧ c.isDigit = true := by
  obtain ⟨c, cs, heq, hdig, -⟩ := natPrint_parse n [] rfl
  exact ⟨c, cs, by simpa using heq, hdig⟩

theorem printJson_head (j : Json) : ∃ c cs, printJson j = c :: cs ∧ goodStart c = true := by
  cases j with
  | null => exact ⟨'n', _, rfl, by decide⟩
  | bool b =>
    cases b
    · exact ⟨'f', _, rfl, by decide⟩
    · exact ⟨'t', _, rfl, by decide⟩
  | num n =>
    by_cases hneg : n < 0
    · refine ⟨'-', natPrint n.natAbs, ?_, by decide⟩
      rw [printJson, intPrint, if_pos hneg]
    · obtain ⟨c, cs, heq, hdig⟩ := natPrint_head n.natAbs
      refine ⟨c, cs, ?_, by simp [goodStart, hdig]⟩
      rw [printJson, intPrint, if_neg hneg, heq]
  | str s => exact ⟨'"', _, rfl, by decide⟩
  | arr xs =>
    cases xs
    · exact ⟨'[', _, rfl, by decide⟩
    · exact ⟨'[', _, rfl, by decide⟩
  | obj fs =>
    cases fs
    · exact ⟨'\x7b', _, rfl, by decide⟩
    · exact ⟨'\x7b', _, rfl, by decide⟩

theorem intPrint_length_pos (n : Int) : 1 ≤ (intPrint n).length := by
  by_cases hneg : n < 0
  · rw [intPrint, if_pos hneg]
    simp
  · rw [intPrint, if_neg hneg]
    obtain ⟨c, cs, heq, -⟩ := natPrint_head n.natAbs
    rw [heq]
    simp

mutual

theorem costJson_le : ∀ j : Json, costJson j ≤ (printJson j).length
  | .null => by simp [costJson, printJson]
  | .bool b => by cases b <;> simp [costJson, printJson]
  | .num n => by
    have h := intPrint_length_pos n
    simp only [costJson, printJson]
    omega
  | .str s => by simp [costJson, printJson]
  | .arr [] => by simp [costJson, costElems, printJson]
  | .arr (x :: xs) => by
    have h1 := costJson_le x
    have h2 := costElems_le xs
    simp only [costJson, costElems, printJson, List.length_cons, List.length_append]
    omega
  | .obj [] => by simp [costJson, costFields, printJson]
  | .obj ((k, v) :: fs) => by
    have h1 := costJson_le v
    have h2 := costFields_le fs
    simp only [costJson, costFields, printJson, printField, List.length_cons,
      List.length_append]
    omega

theorem costElems_le : ∀ xs : List Json, costElems xs ≤ (printElems xs).length
  | [] => by simp [costElems, printElems]
  | x :: xs => by
    have h1 := costJson_le x
    have h2 := costElems_le xs
    simp only [costElems, printElems, List.length_cons, List.length_append]
    omega

theorem costFields_le : ∀ fs : List (String × Json), costFields fs ≤ (printFields fs).length
  | [] => by simp [costFields, printFields]
  | (k, v) :: fs => by
    have h1 := costJson_le v
    have h2 := costFields_le fs
    simp only [costFields, printFields, printField, List.length_cons, List.length_append]
    omega

end

theorem costJson_pos (j : Json) : 1 ≤ costJson j := by
  cases j <;> simp only [costJson] <;> omega

theorem pElems_succ (f : Nat) (cs : List Char) : pElems (f + 1) cs =
    (match pVal f cs with
     | none => none
     | some (x, r) =>
       if headIs (skipWs r) ',' then
         match pElems f (skipWs r).tail with
         | some (xs, r3) => some (x :: xs, r3)
         | none => none
       else if headIs (skipWs r) ']' then some ([x], (skipWs r).tail)
       else none) := by
  rw [pElems.eq_def]

theorem pFields_succ (f : Nat) (cs : List Char) : pFields (f + 1) cs =
    (match skipWs cs with
     | '"' :: r =>
       match parseStringBody r with
       | none => none
       | some (kcs, r2) =>
         if headIs (skipWs r2) ':' then
           match pVal f (skipWs r2).tail with
           | none => none
           | some (v, r4) =>
             if headIs (skipWs r4) ',' then
               match pFields f (skipWs r4).tail with
               | some (fs, r6) => some ((⟨kcs⟩, v) :: fs, r6)
               | none => none
             else if headIs (skipWs r4) '\x7d' then some ([(⟨kcs⟩, v)], (skipWs r4).tail)
             else none
         else none
     | _ => none) := by
  rw [pFields.eq_def]

theorem parserRoundTrip : ∀ f : Nat,
    (∀ j rest, costJson j ≤ f → noDigitHead rest = true →
      pVal f (printJson j ++ rest) = some (j, rest)) ∧
    (∀ x xs rest, costElems (x :: xs) ≤ f →
      pElems f (printJson x ++ (printElems xs ++ (']' :: rest))) = some (x :: xs, rest)) ∧
    (∀ k v fs rest, costFields ((k, v) :: fs) ≤ f →
      pFields f (printField (k, v) ++ (printFields fs ++ ('\x7d' :: rest)))
        = some ((k, v) :: fs, rest)) := by
  intro f
  induction f with
  | zero =>
    refine ⟨fun j rest hc _ => absurd hc (by have := costJson_pos j; omega),
      fun x xs rest hc => absurd hc (by simp only [costElems]; omega),
      fun k v fs rest hc => absurd hc (by simp only [costFields]; omega)⟩
  | succ f ih =>
    obtain ⟨ihV, ihE, ihF⟩ := ih
    refine ⟨?_, ?_, ?_⟩
    · intro j rest hc hrest
      cases j with
      | null =>
        rw [show printJson .null = ['n', 'u', 'l', 'l'] from rfl, pVal.eq_def]
        simp [skipWs, isWsCh, dropLit]
      | bool b =>
        cases b
        · rw [show printJson (.bool false) = ['f', 'a', 'l', 's', 'e'] from rfl, pVal.eq_def]
          simp [skipWs, isWsCh, dropLit]
        · rw [show printJson (.bool true) = ['t', 'r', 'u', 'e'] from rfl, pVal.eq_def]
          simp [skipWs, isWsCh, dropLit]
      | num n =>
        have hnum := parseNumber_intPrint n rest hrest
        rw [show printJson (.num n) = intPrint n from rfl]
        by_cases hneg : n < 0
        · rw [intPrint, if_pos hneg] at hnum ⊢
          rw [pVal.eq_def]
          simp only [List.cons_append] at hnum ⊢
          rw [skipWs_not_ws _ (by decide)]
          simp [hnum]
        · rw [intPrint, if_neg hneg] at hnum ⊢
          obtain ⟨c, cs, heq, hdig⟩ := natPrint_head n.natAbs
          rw [heq] at hnum ⊢
          rw [pVal.eq_def]
          simp only [List.cons_append] at hnum ⊢
          rw [skipWs_not_ws _ (isDigit_not_ws hdig)]
          simp only [isDigit_beq_false hdig (show ('n' : Char).isDigit = false from rfl),
            isDigit_beq_false hdig (show ('t' : Char).isDigit = false from rfl),
            isDigit_beq_false hdig (show ('f' : Char).isDigit = false from rfl),
            isDigit_beq_false hdig (show ('"' : Char).isDigit = false from rfl),
            isDigit_beq_false hdig (show ('[' : Char).isDigit = false from rfl),
            isDigit_beq_false hdig (show ('\x7b' : Char).isDigit = false from rfl),
            Bool.false_eq_true, if_false, hnum]
          rfl
      | str s =>
        rw [show printJson (.str s) = '"' :: (escList s.data ++ ['"']) from rfl, pVal.eq_def]
        simp only [List.cons_append, List.append_assoc, List.singleton_append, List.nil_append]
        rw [skipWs_not_ws _ (by decide)]
        simp only [show (('"' : Char) == 'n') = false from rfl,
          show (('"' : Char) == 't') = false from rfl,
          show (('"' : Char) == 'f') = false from rfl,
          show (('"' : Char) == '"') = true from rfl,
          Bool.false_eq_true, if_false, if_true]
        rw [parseStringBody_escList]
        rfl
      | arr xs =>
        cases xs with
        | nil =>
          rw [show printJson (.arr []) = ['[', ']'] from rfl, pVal.eq_def]
          simp [skipWs, isWsCh, headIs]
        | cons x xs =>
          rw [show printJson (.arr (x :: xs))
              = '[' :: (printJson x ++ printElems xs ++ [']']) from rfl, pVal.eq_def]
          simp only [List.cons_append, List.append_assoc, List.singleton_append, List.nil_append]
          rw [skipWs_not_ws _ (by decide)]
          simp only [show (('[' : Char) == 'n') = false from rfl,
            show (('[' : Char) == 't') = false from rfl,
            show (('[' : Char) == 'f') = false from rfl,
            show (('[' : Char) == '"') = false from rfl,
            show (('[' : Char) == '[') = true from rfl,
            Bool.false_eq_true, if_false, if_true]
          obtain ⟨c, cs, heq, hgs⟩ := printJson_head x
          have hT : skipWs (printJson x ++ (printElems xs ++ (']' :: rest)))
              = printJson x ++ (printElems xs ++ (']' :: rest)) := by
            rw [heq, List.cons_append]
            exact skipWs_not_ws _ (goodStart_not_ws hgs)
          rw [hT]
          have hH : headIs (printJson x ++ (printElems xs ++ (']' :: rest))) ']' = false := by
            rw [heq, List.cons_append]
            exact goodStart_beq_false hgs (by decide)
          rw [hH]
          simp only [Bool.false_eq_true, if_false]
          have hcost : costElems (x :: xs) ≤ f := by
            simp only [costJson] at hc
            omega
          rw [ihE x xs rest hcost]
          rfl
      | obj fs =>
        cases fs with
        | nil =>
          rw [show printJson (.obj []) = ['\x7b', '\x7d'] from rfl, pVal.eq_def]
          simp [skipWs, isWsCh, headIs]
        | cons fv fs =>
          obtain ⟨k, v⟩ := fv
          rw [show printJson (.obj ((k, v) :: fs))
              = '\x7b' :: (printField (k, v) ++ printFields fs ++ ['\x7d']) from rfl,
            pVal.eq_def]
          simp only [List.cons_append, List.append_assoc, List.singleton_append, List.nil_append]
          rw [skipWs_not_ws _ (by decide)]
          simp only [show (('\x7b' : Char) == 'n') = false from rfl,
            show (('\x7b' : Char) == 't') = false from rfl,
            show (('\x7b' : Char) == 'f') = false from rfl,
            show (('\x7b' : Char) == '"') = false from rfl,
            show (('\x7b' : Char) == '[') = false from rfl,
            show (('\x7b' : Char) == '\x7b') = true from rfl,
            Bool.false_eq_true, if_false, if_true]
          have hT : skipWs (printField (k, v) ++ (printFields fs ++ ('\x7d' :: rest)))
              = printField (k, v) ++ (printFields fs ++ ('\x7d' :: rest)) := by
            rw [show printField (k, v) = '"' :: (escList k.data ++ ['"', ':'] ++ printJson v)
              from rfl, List.cons_append]
            exact skipWs_not_ws _ (by decide)
          rw [hT]
          have hH : headIs (printField (k, v) ++ (printFields fs ++ ('\x7d' :: rest)))
              '\x7d' = false := by
            rw [show printField (k, v) = '"' :: (escList k.data ++ ['"', ':'] ++ printJson v)
              from rfl, List.cons_append]
            rfl
          rw [hH]
          simp only [Bool.false_eq_true, if_false]
          have hcost : costFields ((k, v) :: fs) ≤ f := by
            simp only [costJson] at hc
            omega
          rw [ihF k v fs rest hcost]
          rfl
    · intro x xs rest hce
      rw [pElems_succ]
      have hx : costJson x ≤ f := by
        simp only [costElems] at hce
        omega
      have hnd : noDigitHead (printElems xs ++ (']' :: rest)) = true := by
        cases xs with
        | nil => rfl
        | cons y ys => rfl
      rw [ihV x (printElems xs ++ (']' :: rest)) hx hnd]
      cases xs with
      | nil =>
        simp only [printElems, List.nil_append]
        rw [skipWs_not_ws _ (by decide)]
        simp [headIs]
      | cons y ys =>
        rw [show printElems (y :: ys) = ',' :: (printJson y ++ printElems ys) from rfl]
        simp only [List.cons_append, List.append_assoc]
        rw [skipWs_not_ws _ (by decide)]
        have hcost : costElems (y :: ys) ≤ f := by
          simp only [costElems] at hce ⊢
          omega
        simp only [show headIs (',' :: (printJson y ++ (printElems ys ++ (']' :: rest)))) ','
            = true from rfl, if_true, List.tail_cons]
        rw [ihE y ys rest hcost]
    · intro k v fs rest hcf
      rw [pFields_succ]
      rw [show printField (k, v) = '"' :: (escList k.data ++ ['"', ':'] ++ printJson v)
        from rfl]
      simp only [List.cons_append, List.append_assoc, List.singleton_append, List.nil_append]
      rw [skipWs_not_ws _ (by decide)]
      simp only [parseStringBody_escList]
      have hv : costJson v ≤ f := by
        simp only [costFields] at hcf
        omega
      have hnd : noDigitHead (printFields fs ++ ('\x7d' :: rest)) = true := by
        cases fs with
        | nil => rfl
        | cons g gs => rfl
      rw [show skipWs (':' :: (printJson v ++ (printFields fs ++ ('\x7d' :: rest))))
          = ':' :: (printJson v ++ (printFields fs ++ ('\x7d' :: rest)))
        from skipWs_not_ws _ (by decide)]
      simp only [show headIs (':' :: (printJson v ++ (printFields fs ++ ('\x7d' :: rest)))) ':'
          = true from rfl, if_true, List.tail_cons]
      rw [ihV v (printFields fs ++ ('\x7d' :: rest)) hv hnd]
      cases fs with
      | nil =>
        simp only [printFields, List.nil_append]
        rw [skipWs_not_ws _ (by decide)]
        simp [headIs]
      | cons g gs =>
        obtain ⟨k2, v2⟩ := g
        rw [show printFields ((k2, v2) :: gs) = ',' :: (printField (k2, v2) ++ printFields gs)
          from rfl]
        simp only [List.cons_append, List.append_assoc]
        rw [skipWs_not_ws _ (by decide)]
        have hcost : costFields ((k2, v2) :: gs) ≤ f := by
          simp only [costFields] at hcf ⊢
          omega
        simp only [show headIs
            (',' :: (printField (k2, v2) ++ (printFields gs ++ ('\x7d' :: rest)))) ','
            = true from rfl, if_true, List.tail_cons]
        rw [ihF k2 v2 gs rest hcost]

theorem jsonParse_printJsonStr (j : Json) : jsonParse (printJsonStr j) = some j := by
  have h := (parserRoundTrip ((printJson j).length + 1)).1 j []
    (by have := costJson_le j; omega) rfl
  rw [List.append_nil] at h
  have hdata : (printJsonStr j).data = printJson j := rfl
  have hlen : (printJsonStr j).length = (printJson j).length := rfl
  rw [jsonParse, hdata, hlen, h]
  rfl

/-! ### Store-level lemmas -/

theorem lookupA_upsert_self {α : Type} : ∀ (l : List (String × α)) (k : String) (v : α),
    lookupA (upsert l k v) k = some v := by
  intro l k v
  induction l with
  | nil => simp [upsert, lookupA]
  | cons h t ih =>
    obtain ⟨k2, v2⟩ := h
    by_cases hk : (k2 == k) = true
    · rw [upsert, if_pos hk, lookupA]
      simp
    · rw [upsert, if_neg (by simp_all), lookupA, if_neg (by simp_all)]
      exact ih

theorem mem_upsert {α : Type} : ∀ (l : List (String × α)) (k : String) (v : α)
    (p : String × α), p ∈ upsert l k v → p = (k, v) ∨ p ∈ l := by
  intro l k v
  induction l with
  | nil =>
    intro p hp
    simp [upsert] at hp
    exact Or.inl hp
  | cons h t ih =>
    intro p hp
    obtain ⟨k2, v2⟩ := h
    by_cases hk : (k2 == k) = true
    · rw [upsert, if_pos hk] at hp
      rcases List.mem_cons.mp hp with h1 | h1
      · exact Or.inl h1
      · exact Or.inr (List.mem_cons_of_mem _ h1)
    · rw [upsert, if_neg (by simp_all)] at hp
      rcases List.mem_cons.mp hp with h1 | h1
      · exact Or.inr (h1 ▸ List.mem_cons_self _ _)
      · rcases ih p h1 with h2 | h2
        · exact Or.inl h2
        · exact Or.inr (List.mem_cons_of_mem _ h2)

theorem lookupA_append_of_none {α : Type} : ∀ (l : List (String × α)) (k : String) (v : α),
    lookupA l k = none → lookupA (l ++ [(k, v)]) k = some v := by
  intro l k v
  induction l with
  | nil => intro _; simp [lookupA]
  | cons h t ih =>
    obtain ⟨k2, v2⟩ := h
    intro hn
    rw [lookupA] at hn
    by_cases hk : (k2 == k) = true
    · rw [if_pos hk] at hn
      cases hn
    · rw [if_neg (by simp_all)] at hn
      rw [List.cons_append, lookupA, if_neg (by simp_all)]
      exact ih hn

theorem countKey_of_lookupA_none {α : Type} : ∀ (l : List (String × α)) (k : String),
    lookupA l k = none → countKey l k = 0 := by
  intro l k
  induction l with
  | nil => intro _; rfl
  | cons h t ih =>
    obtain ⟨k2, v2⟩ := h
    intro hn
    rw [lookupA] at hn
    by_cases hk : (k2 == k) = true
    · rw [if_pos hk] at hn
      cases hn
    · rw [if_neg (by simp_all)] at hn
      simp only [countKey, List.filter_cons]
      rw [if_neg (by simp_all)]
      exact ih hn

theorem updateA_lookupA {α : Type} : ∀ (l : List (String × α)) (k : String) (g : α → α),
    lookupA (updateA l k g).1 k = (lookupA l k).map g := by
  intro l k g
  induction l with
  | nil => simp [updateA, lookupA]
  | cons h t ih =>
    obtain ⟨k2, v2⟩ := h
    by_cases hk : (k2 == k) = true
    · rw [updateA]
      simp only [if_pos hk]
      rw [lookupA, if_pos hk, lookupA, if_pos hk]
      rfl
    · rw [updateA]
      simp only [if_neg (show ¬(k2 == k) = true by simp_all)]
      rw [lookupA, if_neg (by simp_all), lookupA, if_neg (by simp_all)]
      exact ih

theorem updateA_changes_zero {α : Type} : ∀ (l : List (String × α)) (k : String) (g : α → α),
    (updateA l k g).2 = 0 ↔ lookupA l k = none := by
  intro l k g
  induction l with
  | nil => simp [updateA, lookupA]
  | cons h t ih =>
    obtain ⟨k2, v2⟩ := h
    by_cases hk : (k2 == k) = true
    · rw [updateA]
      simp only [if_pos hk]
      rw [lookupA, if_pos hk]
      simp
    · rw [updateA]
      simp only [if_neg (show ¬(k2 == k) = true by simp_all)]
      rw [lookupA, if_neg (by simp_all)]
      exact ih

theorem setSetting_db (st : Db) (sync : SyncOutcome) (key : String) (value : JsValue)
    (skipSync : Bool) : (setSetting st sync key value skipSync).db
      = { st with settings := upsert st.settings key (valueToStore value) } := by
  rw [setSetting]
  cases skipSync
  · cases sync <;> rfl
  · rfl

theorem andSync_db (st : Db) (sync : SyncOutcome) (tr : List DbAction) :
    (andSync st sync tr).db = st := by
  cases sync <;> rfl

theorem andSync_trace (st : Db) (sync : SyncOutcome) (tr : List DbAction) :
    (andSync st sync tr).trace = tr ++ [.sync] := by
  cases sync <;> rfl

theorem andSync_result_ok (st : Db) (tr : List DbAction) :
    (andSync st (.ok ()) tr).result = .ok () := rfl

theorem andSync_result_err (st : Db) (e : JsError) (tr : List DbAction) :
    (andSync st (.error e) tr).result = .error e := rfl

theorem getSetting_after_set (st : Db) (sync : SyncOutcome) (key : String) (value : JsValue)
    (skipSync : Bool) : getSetting ((setSetting st sync key value skipSync).db) key .vnull
      = (match jsonParse (valueToStore value) with
         | some j => jsonToJs j
         | none => .vstr (valueToStore value)) := by
  rw [setSetting_db, getSetting]
  simp only [lookupA_upsert_self]

theorem dailyQuotaBad_iff (category : String) (dq : Option ℚ) :
    dailyQuotaBad category dq = true ↔
      ((category = "Custom" ∧ ∃ q, dq = some q ∧ q.den ≠ 1) ∨ (∃ q, dq = some q ∧ q < 0)) := by
  cases dq with
  | none => simp [dailyQuotaBad, jsIsInteger, jsLtZero]
  | some q =>
    simp only [dailyQuotaBad, jsIsInteger, jsLtZero, Bool.or_eq_true, Bool.and_eq_true,
      beq_iff_eq, decide_eq_true_eq, Option.isSome_some, Bool.not_eq_true',
      Option.some.injEq]
    aesop

theorem individualQuotaBad_iff (category : String) (iq : Option ℚ) :
    individualQuotaBad category iq = true ↔
      (((category = "Pro" ∨ category = "Flash") ∧ ∃ q, iq = some q ∧ q.den ≠ 1) ∨
        (∃ q, iq = some q ∧ q < 0)) := by
  cases iq with
  | none => simp [individualQuotaBad, jsIsInteger, jsLtZero]
  | some q =>
    simp only [individualQuotaBad, jsIsInteger, jsLtZero, Bool.or_eq_true, Bool.and_eq_true,
      beq_iff_eq, decide_eq_true_eq, Option.isSome_some, Bool.not_eq_true',
      Option.some.injEq]
    aesop

/-! ### Claim theorems -/

/-- C9: for every modelId and every category string (also ones outside
Pro, Flash, Custom), `setModelConfig` with both quotas null or undefined
never raises a validation error: the write always executes and, with a
successful sync, the call succeeds. -/
theorem C9_null_quotas_never_rejected : ∀ (st : Db) (sync : SyncOutcome)
    (modelId category : String),
    (setModelConfig st sync modelId category none none).trace = [.write, .sync] ∧
    (setModelConfig st sync modelId category none none).db
      = { st with models_config := upsert st.models_config modelId ⟨category, none, none⟩ } ∧
    (setModelConfig st (.ok ()) modelId category none none).result = .ok () := by
  intro st sync modelId category
  have h1 : dailyQuotaBad category none = false := by
    simp [dailyQuotaBad, jsIsInteger, jsLtZero]
  have h2 : individualQuotaBad category none = false := by
    simp [individualQuotaBad, jsIsInteger, jsLtZero]
  refine ⟨?_, ?_, ?_⟩
  · rw [setModelConfig, if_neg (by rw [h1]; simp), if_neg (by rw [h2]; simp), andSync_trace]
    rfl
  · rw [setModelConfig, if_neg (by rw [h1]; simp), if_neg (by rw [h2]; simp), andSync_db]
  · rw [setModelConfig, if_neg (by rw [h1]; simp), if_neg (by rw [h2]; simp)]
    rfl

/-- C10: when a worker_keys row exists but its stored safety_enabled is
anything other than the integer 1 (0, NULL, ...), the safety getter
returns false; the fail-open true default applies only with no row. -/
theorem C10_safety_raw_value : ∀ (st : Db) (k : String) (r : WorkerRow),
    (lookupA st.worker_keys k = some r → r.safety_enabled ≠ some 1 →
      getWorkerKeySafetySetting st k = false) ∧
    (lookupA st.worker_keys k = none → getWorkerKeySafetySetting st k = true) := by
  intro st k r
  constructor
  · intro hl hne
    rw [getWorkerKeySafetySetting, hl]
    exact beq_eq_false_iff_ne.mpr hne
  · intro hl
    rw [getWorkerKeySafetySetting, hl]

/-- C10 witness at concrete rows: a stored 0 and a stored NULL give
false, an absent key gives true. -/
theorem C10_safety_raw_value_witness :
    getWorkerKeySafetySetting ⟨[], [], [("K1", ⟨"", some 0, "t"⟩)]⟩ "K1" = false ∧
    getWorkerKeySafetySetting ⟨[], [], [("K2", ⟨"", none, "t"⟩)]⟩ "K2" = false ∧
    getWorkerKeySafetySetting ⟨[], [], []⟩ "K3" = true :=
  ⟨(C10_safety_raw_value ⟨[], [], [("K1", ⟨"", some 0, "t"⟩)]⟩ "K1"
      ⟨"", some 0, "t"⟩).1 (by decide) (by decide),
   (C10_safety_raw_value ⟨[], [], [("K2", ⟨"", none, "t"⟩)]⟩ "K2"
      ⟨"", none, "t"⟩).1 (by decide) (by decide),
   (C10_safety_raw_value ⟨[], [], []⟩ "K3" ⟨"", none, "t"⟩).2 (by decide)⟩

/-- C7: the safety getter returns true for any key with no stored row
(fail-open default), and after a successful updateWorkerKeySafety(k,
false) it returns false for k. -/
theorem C7_safety_default_and_update : ∀ (st : Db) (sync : SyncOutcome) (k : String),
    (lookupA st.worker_keys k = none → getWorkerKeySafetySetting st k = true) ∧
    ((lookupA st.worker_keys k).isSome = true →
      (updateWorkerKeySafety st (.ok ()) k false).result = .ok () ∧
      getWorkerKeySafetySetting (updateWorkerKeySafety st sync k false).db k = false) := by
  intro st sync k
  constructor
  · intro hl
    rw [getWorkerKeySafetySetting, hl]
  · intro hs
    have key : ∀ g : WorkerRow → WorkerRow,
        ((updateA st.worker_keys k g).2 == 0) = false := by
      intro g
      rw [beq_eq_false_iff_ne]
      intro h0
      rw [(updateA_changes_zero _ _ _).mp h0] at hs
      cases hs
    constructor
    · simp only [updateWorkerKeySafety, key, Bool.false_eq_true, if_false]
      exact andSync_result_ok _ _
    · simp only [updateWorkerKeySafety, key, Bool.false_eq_true, if_false, andSync_db]
      rw [getWorkerKeySafetySetting]
      simp only [updateA_lookupA]
      obtain ⟨r, hr⟩ := Option.isSome_iff_exists.mp hs
      rw [hr]
      simp

/-- C7 witness: updating K1 to false then reading gives false; an
unknown key reads true. -/
theorem C7_safety_default_and_update_witness :
    getWorkerKeySafetySetting
      (updateWorkerKeySafety ⟨[], [], [("K1", ⟨"", some 1, "t"⟩)]⟩ (.ok ()) "K1" false).db
      "K1" = false ∧
    (updateWorkerKeySafety ⟨[], [], [("K1", ⟨"", some 1, "t"⟩)]⟩ (.ok ()) "K1" false).result
      = .ok () ∧
    getWorkerKeySafetySetting ⟨[], [], [("K1", ⟨"", some 1, "t"⟩)]⟩ "K9" = true :=
  ⟨((C7_safety_default_and_update ⟨[], [], [("K1", ⟨"", some 1, "t"⟩)]⟩ (.ok ()) "K1").2
      (by decide)).2,
   ((C7_safety_default_and_update ⟨[], [], [("K1", ⟨"", some 1, "t"⟩)]⟩ (.ok ()) "K1").2
      (by decide)).1,
   (C7_safety_default_and_update ⟨[], [], [("K1", ⟨"", some 1, "t"⟩)]⟩ (.ok ()) "K9").1
      (by decide)⟩

/-- C8: with no stored category-quota setting `getCategoryQuotas` returns
the defaults 50 and 1500; with a stored JSON object, each field that is
not a number is replaced by its own default while the other field keeps
its stored value (field-by-field fallback). -/
theorem C8_category_quota_fallback : ∀ (st : Db) (pv fv : Json),
    (lookupA st.settings "category_quotas" = none →
      getCategoryQuotas st = ⟨50, 1500⟩) ∧
    (lookupA st.settings "category_quotas"
        = some (printJsonStr (.obj [("proQuota", pv), ("flashQuota", fv)])) →
      getCategoryQuotas st = ⟨numOrDefault (some pv) 50, numOrDefault (some fv) 1500⟩) := by
  intro st pv fv
  constructor
  · intro hl
    rw [getCategoryQuotas, getSetting, hl]
    rfl
  · intro hl
    rw [getCategoryQuotas, getSetting, hl]
    simp [jsonParse_printJsonStr, jsonToJs, jsGet, lookupA, numOrDefault]

/-- C8 witness: empty store gives the defaults; a stored object with a
non-numeric proQuota and numeric flashQuota keeps only the stored
flashQuota. -/
theorem C8_category_quota_fallback_witness :
    getCategoryQuotas ⟨[], [], []⟩ = ⟨50, 1500⟩ ∧
    getCategoryQuotas
      ⟨[("category_quotas",
          printJsonStr (.obj [("proQuota", .str "x"), ("flashQuota", .num 7)]))], [], []⟩
      = ⟨50, 7⟩ :=
  ⟨(C8_category_quota_fallback ⟨[], [], []⟩ .null .null).1 (by decide),
   (C8_category_quota_fallback
      ⟨[("category_quotas",
          printJsonStr (.obj [("proQuota", .str "x"), ("flashQuota", .num 7)]))], [], []⟩
      (.str "x") (.num 7)).2 (by decide)⟩

/-- C2: `setModelConfig` raises a validation error (with a successful
sync, the call fails) exactly when (category is Custom and the
normalized dailyQuota is non-null and not an integer), or the normalized
dailyQuota is negative regardless of category, or (category is Pro or
Flash and the normalized individualQuota is non-null and not an
integer), or the normalized individualQuota is negative regardless of
category; and a validation failure happens before any storage access:
the store is unchanged and the trace is empty under any sync outcome. -/
theorem C2_validation_condition : ∀ (st : Db) (modelId category : String)
    (dq iq : Option ℚ),
    (((setModelConfig st (.ok ()) modelId category dq iq).result ≠ .ok ()) ↔
      ((category = "Custom" ∧ ∃ q, dq = some q ∧ q.den ≠ 1) ∨
       (∃ q, dq = some q ∧ q < 0) ∨
       ((category = "Pro" ∨ category = "Flash") ∧ ∃ q, iq = some q ∧ q.den ≠ 1) ∨
       (∃ q, iq = some q ∧ q < 0))) ∧
    (((category = "Custom" ∧ ∃ q, dq = some q ∧ q.den ≠ 1) ∨
       (∃ q, dq = some q ∧ q < 0) ∨
       ((category = "Pro" ∨ category = "Flash") ∧ ∃ q, iq = some q ∧ q.den ≠ 1) ∨
       (∃ q, iq = some q ∧ q < 0)) →
      ∀ sync, (setModelConfig st sync modelId category dq iq).db = st ∧
        (setModelConfig st sync modelId category dq iq).trace = [] ∧
        (setModelConfig st sync modelId category dq iq).result ≠ .ok ()) := by
  intro st modelId category dq iq
  have hVbool : (((category = "Custom" ∧ ∃ q, dq = some q ∧ q.den ≠ 1) ∨
       (∃ q, dq = some q ∧ q < 0) ∨
       ((category = "Pro" ∨ category = "Flash") ∧ ∃ q, iq = some q ∧ q.den ≠ 1) ∨
       (∃ q, iq = some q ∧ q < 0)) ↔
      (dailyQuotaBad category dq = true ∨ individualQuotaBad category iq = true)) := by
    rw [dailyQuotaBad_iff, individualQuotaBad_iff, or_assoc]
  constructor
  · rw [hVbool]
    by_cases h1 : dailyQuotaBad category dq = true
    · rw [setModelConfig, if_pos h1]
      simp [h1]
    · by_cases h2 : individualQuotaBad category iq = true
      · rw [setModelConfig, if_neg h1, if_pos h2]
        simp [h2]
      · rw [setModelConfig, if_neg h1, if_neg h2]
        simp [h1, h2, andSync_result_ok]
  · rw [hVbool]
    intro hV sync
    by_cases h1 : dailyQuotaBad category dq = true
    · rw [setModelConfig, if_pos h1]
      exact ⟨rfl, rfl, by simp⟩
    · rcases hV with hV | hV
      · exact absurd hV h1
      · rw [setModelConfig, if_neg h1, if_pos hV]
        exact ⟨rfl, rfl, by simp⟩

/-- C2 witness: a Custom model with fractional dailyQuota is rejected
with untouched store, while a Pro model with integral quotas passes. -/
theorem C2_validation_condition_witness :
    (setModelConfig ⟨[], [], []⟩ (.ok ()) "m" "Custom" (some (mkRat 7 2)) none).result
      ≠ .ok () ∧
    (setModelConfig ⟨[], [], []⟩ (.error ⟨none, "sync down"⟩) "m" "Custom"
      (some (mkRat 7 2)) none).db = ⟨[], [], []⟩ ∧
    ¬ ((setModelConfig ⟨[], [], []⟩ (.ok ()) "m" "Pro" (some (mkRat 3 1)) none).result
      ≠ .ok ()) :=
  ⟨(C2_validation_condition ⟨[], [], []⟩ "m" "Custom" (some (mkRat 7 2)) none).1.mpr
      (Or.inl ⟨rfl, mkRat 7 2, rfl, by decide⟩),
   ((C2_validation_condition ⟨[], [], []⟩ "m" "Custom" (some (mkRat 7 2)) none).2
      (Or.inl ⟨rfl, mkRat 7 2, rfl, by decide⟩) (.error ⟨none, "sync down"⟩)).1,
   fun h => by
     rcases (C2_validation_condition ⟨[], [], []⟩ "m" "Pro" (some (mkRat 3 1)) none).1.mp h
       with ⟨h1, -⟩ | ⟨q, hq, hlt⟩ | ⟨-, q, hq, -⟩ | ⟨q, hq, -⟩
     · exact absurd h1 (by decide)
     · cases hq
       exact absurd hlt (by decide)
     · cases hq
     · cases hq⟩

/-- C3 counterexample: from the empty store, a successful
`setModelConfig` for category Pro stores dailyQuota 7/2, which is not a
non-negative integer, so the claimed invariant fails on a reachable
record. -/
theorem C3_counterexample :
    (setModelConfig ⟨[], [], []⟩ (.ok ()) "m" "Pro" (some (mkRat 7 2)) none).result
      = .ok () ∧
    ReachableModels (setModelConfig ⟨[], [], []⟩ (.ok ()) "m" "Pro"
      (some (mkRat 7 2)) none).db ∧
    lookupA (setModelConfig ⟨[], [], []⟩ (.ok ()) "m" "Pro"
      (some (mkRat 7 2)) none).db.models_config "m"
      = some ⟨"Pro", some (mkRat 7 2), none⟩ ∧
    (mkRat 7 2).den ≠ 1 :=
  ⟨by decide,
   ReachableModels.step _ _ _ _ _ _ (ReachableModels.init [] []),
   by decide, by decide⟩

/-- C3 amended: for every ModelConfig record reachable by any sequence
of setModelConfig calls, the stored dailyQuota is null or a non-negative
number, and for records whose category is Custom it is additionally an
integer (the source checks integrality only when category is Custom, so
a non-integral dailyQuota can be stored for other categories;
negativity is rejected for every category). -/
theorem C3_amended_invariant : ∀ st : Db, ReachableModels st →
    ∀ p ∈ st.models_config,
      (p.2.daily_quota = none ∨ ∃ q, p.2.daily_quota = some q ∧ 0 ≤ q) ∧
      (p.2.category = "Custom" →
        p.2.daily_quota = none ∨ ∃ q, p.2.daily_quota = some q ∧ 0 ≤ q ∧ q.den = 1) := by
  intro st hst
  induction hst with
  | init s w =>
    intro p hp
    simp at hp
  | step st sync modelId category dq iq hst ih =>
    intro p hp
    by_cases h1 : dailyQuotaBad category dq = true
    · rw [setModelConfig, if_pos h1] at hp
      exact ih p hp
    · by_cases h2 : individualQuotaBad category iq = true
      · rw [setModelConfig, if_neg h1, if_pos h2] at hp
        exact ih p hp
      · rw [setModelConfig, if_neg h1, if_neg h2, andSync_db] at hp
        rcases mem_upsert _ _ _ _ hp with heq | hmem
        · subst heq
          have h1f : dailyQuotaBad category dq = false := by
            cases hb : dailyQuotaBad category dq
            · rfl
            · exact absurd hb h1
          rcases Bool.or_eq_false_iff.mp h1f with ⟨hand, hltb⟩
          have hge : ∀ q, dq = some q → 0 ≤ q := by
            intro q hq
            subst hq
            simp only [jsLtZero, decide_eq_false_iff_not, not_lt] at hltb
            exact hltb
          constructor
          · cases hdq : dq with
            | none => exact Or.inl (by simp [hdq])
            | some q => exact Or.inr ⟨q, by simp [hdq], hge q hdq⟩
          · intro hcust
            have hcat : category = "Custom" := hcust
            cases hdq : dq with
            | none => exact Or.inl (by simp [hdq])
            | some q =>
              refine Or.inr ⟨q, by simp [hdq], hge q hdq, ?_⟩
              subst hcat
              subst hdq
              simp only [Bool.and_eq_false_iff] at hand
              rcases hand with hand | hand
              · rcases hand with hand | hand
                · simp at hand
                · simp at hand
              · simp only [jsIsInteger, Bool.not_eq_eq_eq_not, Bool.not_false] at hand
                exact eq_of_beq hand
        · exact ih p hmem

/-- C3 amended witness: the invariant instantiated on a concrete
reachable store holding one Custom record with dailyQuota 5. -/
theorem C3_amended_invariant_witness :
    (("m", (⟨"Custom", some (mkRat 5 1), none⟩ : ModelRow)).2.daily_quota = none ∨
      ∃ q, ("m", (⟨"Custom", some (mkRat 5 1), none⟩ : ModelRow)).2.daily_quota = some q ∧
        0 ≤ q) ∧
    (("m", (⟨"Custom", some (mkRat 5 1), none⟩ : ModelRow)).2.category = "Custom" →
      ("m", (⟨"Custom", some (mkRat 5 1), none⟩ : ModelRow)).2.daily_quota = none ∨
      ∃ q, ("m", (⟨"Custom", some (mkRat 5 1), none⟩ : ModelRow)).2.daily_quota = some q ∧
        0 ≤ q ∧ q.den = 1) :=
  C3_amended_invariant
    (setModelConfig ⟨[], [], []⟩ (.ok ()) "m" "Custom" (some (mkRat 5 1)) none).db
    (ReachableModels.step _ _ _ _ _ _ (ReachableModels.init [] []))
    ("m", ⟨"Custom", some (mkRat 5 1), none⟩) (by decide)

/-- C4 counterexample: the plain string "123" does not round-trip
exactly: it is stored raw, but the read-side JSON parse turns it into
the number 123. -/
theorem C4_counterexample :
    getSetting (setSetting ⟨[], [], []⟩ (.ok ()) "k" (.vstr "123") false).db "k" .vnull
      = .vnum 123 ∧
    JsValue.vnum 123 ≠ JsValue.vstr "123" :=
  ⟨rfl, fun h => by cases h⟩

/-- C4 amended: after setSetting(k, v), getSetting(k, null) returns a
value deep-equal to v when v is a structured (non-null) object or
array; a plain string round-trips exactly when its content is not
parseable as JSON (a string that parses as JSON is returned as the
parsed value instead). -/
theorem C4_amended_roundtrip : ∀ (st : Db) (sync : SyncOutcome) (k : String)
    (fs : List (String × Json)) (xs : List Json) (s : String),
    getSetting ((setSetting st sync k (.vobj fs) false).db) k .vnull = .vobj fs ∧
    getSetting ((setSetting st sync k (.varr xs) false).db) k .vnull = .varr xs ∧
    (jsonParse s = none →
      getSetting ((setSetting st sync k (.vstr s) false).db) k .vnull = .vstr s) := by
  intro st sync k fs xs s
  refine ⟨?_, ?_, ?_⟩
  · rw [getSetting_after_set]
    simp only [show valueToStore (.vobj fs) = printJsonStr (.obj fs) from rfl,
      jsonParse_printJsonStr]
    rfl
  · rw [getSetting_after_set]
    simp only [show valueToStore (.varr xs) = printJsonStr (.arr xs) from rfl,
      jsonParse_printJsonStr]
    rfl
  · intro hp
    rw [getSetting_after_set]
    simp only [show valueToStore (.vstr s) = s from rfl, hp]

/-- C4 amended witness: an object round-trips deep-equal, and the
non-JSON string "hello" round-trips exactly. -/
theorem C4_amended_roundtrip_witness :
    getSetting ((setSetting ⟨[], [], []⟩ (.ok ()) "k"
      (.vobj [("a", .num 1)]) false).db) "k" .vnull = .vobj [("a", .num 1)] ∧
    getSetting ((setSetting ⟨[], [], []⟩ (.ok ()) "k"
      (.vstr "hello") false).db) "k" .vnull = .vstr "hello" :=
  ⟨(C4_amended_roundtrip ⟨[], [], []⟩ (.ok ()) "k" [("a", .num 1)] [] "hello").1,
   (C4_amended_roundtrip ⟨[], [], []⟩ (.ok ()) "k" [("a", .num 1)] [] "hello").2.2 rfl⟩

/-- C5: `setCategoryQuotas` fails with the validation error unless both
arguments are numbers and non-negative, and on such a failure the store
is completely unchanged (trace empty); on success it stores the floored
values as the category_quotas setting. -/
theorem C5_category_quota_validation : ∀ (st : Db) (sync : SyncOutcome)
    (pq fq : Option ℚ),
    ((¬ ∃ p f, pq = some p ∧ fq = some f ∧ 0 ≤ p ∧ 0 ≤ f) →
      setCategoryQuotas st sync pq fq
        = ⟨.error ⟨none, "Quotas must be non-negative numbers."⟩, st, []⟩) ∧
    (∀ p f, pq = some p → fq = some f → 0 ≤ p → 0 ≤ f →
      (setCategoryQuotas st (.ok ()) pq fq).result = .ok () ∧
      lookupA (setCategoryQuotas st sync pq fq).db.settings "category_quotas"
        = some (printJsonStr (.obj [("proQuota", .num (Rat.floor p)),
            ("flashQuota", .num (Rat.floor f))]))) := by
  intro st sync pq fq
  constructor
  · intro hbad
    cases pq with
    | none => rfl
    | some p =>
      cases fq with
      | none => rfl
      | some f =>
        have hor : p < 0 ∨ f < 0 := by
          by_contra hno
          push_neg at hno
          exact hbad ⟨p, f, rfl, rfl, hno.1, hno.2⟩
        have hcond : (decide (p < 0) || decide (f < 0)) = true := by
          rcases hor with h | h <;> simp [h]
        rw [setCategoryQuotas]
        simp only [hcond, if_true]
  · intro p f hp hf h0p h0f
    subst hp
    subst hf
    have hcond : (decide (p < 0) || decide (f < 0)) = false := by
      simp [not_lt.mpr h0p, not_lt.mpr h0f]
    constructor
    · rw [setCategoryQuotas]
      simp only [hcond, Bool.false_eq_true, if_false]
      rw [setSetting]
      simp only [Bool.false_eq_true, if_false]
      exact andSync_result_ok _ _
    · rw [setCategoryQuotas]
      simp only [hcond, Bool.false_eq_true, if_false]
      rw [setSetting_db]
      exact lookupA_upsert_self _ _ _

/-- C5 witness: setCategoryQuotas(-1, 10) fails with the validation
error and leaves the store unchanged; setCategoryQuotas(7/2, 10)
succeeds and stores the floored values 3 and 10. -/
theorem C5_category_quota_validation_witness :
    setCategoryQuotas ⟨[], [], []⟩ (.ok ()) (some (mkRat (-1) 1)) (some (mkRat 10 1))
      = ⟨.error ⟨none, "Quotas must be non-negative numbers."⟩, ⟨[], [], []⟩, []⟩ ∧
    (setCategoryQuotas ⟨[], [], []⟩ (.ok ()) (some (mkRat 7 2)) (some (mkRat 10 1))).result
      = .ok () ∧
    lookupA (setCategoryQuotas ⟨[], [], []⟩ (.ok ()) (some (mkRat 7 2))
        (some (mkRat 10 1))).db.settings "category_quotas"
      = some (printJsonStr (.obj [("proQuota", .num 3), ("flashQuota", .num 10)])) :=
  ⟨(C5_category_quota_validation ⟨[], [], []⟩ (.ok ()) (some (mkRat (-1) 1))
      (some (mkRat 10 1))).1
      (by rintro ⟨p, f, hp, hf, h0p, h0f⟩; cases hp; exact absurd h0p (by decide)),
   ((C5_category_quota_validation ⟨[], [], []⟩ (.ok ()) (some (mkRat 7 2))
      (some (mkRat 10 1))).2 (mkRat 7 2) (mkRat 10 1) rfl rfl (by decide) (by decide)).1,
   by
     have h := ((C5_category_quota_validation ⟨[], [], []⟩ (.ok ()) (some (mkRat 7 2))
        (some (mkRat 10 1))).2 (mkRat 7 2) (mkRat 10 1) rfl rfl (by decide) (by decide)).2
     rw [h]
     decide⟩

/-- C6: addWorkerKey fails with the Conflict domain error when the key
already exists (the unique-constraint violation is translated, any
other error is re-raised unchanged), the store keeps exactly one row
for that key after a duplicate attempt, and a successful insert stores
the key with safety enabled (integer 1). -/
theorem C6_addWorkerKey_conflict : ∀ (st : Db) (sync : SyncOutcome)
    (k d now : String) (e : JsError),
    ((lookupA st.worker_keys k).isSome = true →
      addWorkerKey st sync k d now
        = ⟨.error ⟨none, "Worker key '" ++ k ++ "' already exists."⟩, st, [.write]⟩) ∧
    (countKey st.worker_keys k = 1 →
      countKey (addWorkerKey st sync k d now).db.worker_keys k = 1) ∧
    (addWorkerKeyCatch k ⟨some "SQLITE_CONSTRAINT", e.message⟩
      = ⟨none, "Worker key '" ++ k ++ "' already exists."⟩) ∧
    (e.code ≠ some "SQLITE_CONSTRAINT" → addWorkerKeyCatch k e = e) ∧
    (lookupA st.worker_keys k = none →
      (addWorkerKey st (.ok ()) k d now).result = .ok () ∧
      lookupA (addWorkerKey st (.ok ()) k d now).db.worker_keys k
        = some ⟨d, some 1, now⟩) := by
  intro st sync k d now e
  have hdup : (lookupA st.worker_keys k).isSome = true →
      addWorkerKey st sync k d now
        = ⟨.error ⟨none, "Worker key '" ++ k ++ "' already exists."⟩, st, [.write]⟩ := by
    intro h
    rw [addWorkerKey, if_pos h]
    rw [show addWorkerKeyCatch k
        ⟨some "SQLITE_CONSTRAINT", "UNIQUE constraint failed: worker_keys.api_key"⟩
        = ⟨none, "Worker key '" ++ k ++ "' already exists."⟩ from by
      rw [addWorkerKeyCatch, if_pos (by rfl)]]
  refine ⟨hdup, ?_, ?_, ?_, ?_⟩
  · intro hcount
    by_cases hp : (lookupA st.worker_keys k).isSome = true
    · rw [hdup hp]
      exact hcount
    · have hnone : lookupA st.worker_keys k = none := by
        cases hl : lookupA st.worker_keys k
        · rfl
        · rw [hl] at hp
          exact absurd rfl hp
      rw [countKey_of_lookupA_none _ _ hnone] at hcount
      cases hcount
  · rw [addWorkerKeyCatch, if_pos (by rfl)]
  · intro hne
    rw [addWorkerKeyCatch, if_neg (by simp [hne])]
  · intro hnone
    constructor
    · rw [addWorkerKey, if_neg (by rw [hnone]; simp)]
    · rw [addWorkerKey, if_neg (by rw [hnone]; simp)]
      exact lookupA_append_of_none _ _ _ hnone

/-- C6 witness: a duplicate insert of K1 fails with the Conflict message
and the store still holds exactly one K1 row; inserting a fresh key K2
succeeds with safety stored as 1; a non-constraint error passes the
catch unchanged. -/
theorem C6_addWorkerKey_conflict_witness :
    addWorkerKey ⟨[], [], [("K1", ⟨"", some 1, "t"⟩)]⟩ (.ok ()) "K1" "" "t2"
      = ⟨.error ⟨none, "Worker key 'K1' already exists."⟩,
          ⟨[], [], [("K1", ⟨"", some 1, "t"⟩)]⟩, [.write]⟩ ∧
    countKey (addWorkerKey ⟨[], [], [("K1", ⟨"", some 1, "t"⟩)]⟩ (.ok ())
        "K1" "" "t2").db.worker_keys "K1" = 1 ∧
    (addWorkerKey ⟨[], [], [("K1", ⟨"", some 1, "t"⟩)]⟩ (.ok ()) "K2" "desc" "t2").result
      = .ok () ∧
    lookupA (addWorkerKey ⟨[], [], [("K1", ⟨"", some 1, "t"⟩)]⟩ (.ok ())
        "K2" "desc" "t2").db.worker_keys "K2" = some ⟨"desc", some 1, "t2"⟩ ∧
    addWorkerKeyCatch "K1" ⟨none, "disk full"⟩ = ⟨none, "disk full"⟩ :=
  ⟨(C6_addWorkerKey_conflict ⟨[], [], [("K1", ⟨"", some 1, "t"⟩)]⟩ (.ok ()) "K1" "" "t2"
      ⟨none, ""⟩).1 (by decide),
   (C6_addWorkerKey_conflict ⟨[], [], [("K1", ⟨"", some 1, "t"⟩)]⟩ (.ok ()) "K1" "" "t2"
      ⟨none, ""⟩).2.1 (by decide),
   ((C6_addWorkerKey_conflict ⟨[], [], [("K1", ⟨"", some 1, "t"⟩)]⟩ (.ok ()) "K2" "desc" "t2"
      ⟨none, ""⟩).2.2.2.2 (by decide)).1,
   ((C6_addWorkerKey_conflict ⟨[], [], [("K1", ⟨"", some 1, "t"⟩)]⟩ (.ok ()) "K2" "desc" "t2"
      ⟨none, ""⟩).2.2.2.2 (by decide)).2,
   (C6_addWorkerKey_conflict ⟨[], [], []⟩ (.ok ()) "K1" "" "t"
      ⟨none, "disk full"⟩).2.2.2.1 (by decide)⟩

/-- C1 counterexample: deleteWorkerKey succeeds on an existing key but
never invokes the Sync Trigger, so the claim that every listed mutation
follows a successful write with an awaited sync invocation is false for
deleteWorkerKey. -/
theorem C1_counterexample :
    (deleteWorkerKey ⟨[], [], [("K1", ⟨"", some 1, "t"⟩)]⟩ "K1").result = .ok () ∧
    DbAction.sync ∉ (deleteWorkerKey ⟨[], [], [("K1", ⟨"", some 1, "t"⟩)]⟩ "K1").trace ∧
    (deleteWorkerKey ⟨[], [], [("K1", ⟨"", some 1, "t"⟩)]⟩ "K1").trace = [.write] := by
  refine ⟨by decide, ?_, by decide⟩
  intro h
  rw [show (deleteWorkerKey ⟨[], [], [("K1", ⟨"", some 1, "t"⟩)]⟩ "K1").trace = [.write]
    from by decide] at h
  simp at h

/-- C1 amended: for setSetting with skipSync=false, setModelConfig,
deleteModelConfig, setCategoryQuotas, addWorkerKey,
updateWorkerKeySafety and setGitHubConfig — but not deleteWorkerKey,
which performs no sync invocation — a successful write to the store is
followed by an awaited invocation of the Sync Trigger (the trace is
exactly write-then-sync), and a sync failure propagates as that
mutation's failure. -/
theorem C1_amended_write_then_sync : ∀ (st : Db) (e : JsError) (key : String)
    (value : JsValue) (modelId category : String) (dq iq pq fq : Option ℚ)
    (apiKey description now repo token dbPath : String) (encryptKey : Option String)
    (b : Bool),
    ((setSetting st (.ok ()) key value false).trace = [.write, .sync] ∧
      (setSetting st (.error e) key value false).result = .error e) ∧
    (((setModelConfig st (.ok ()) modelId category dq iq).result = .ok () →
        (setModelConfig st (.ok ()) modelId category dq iq).trace = [.write, .sync]) ∧
      ((setModelConfig st (.ok ()) modelId category dq iq).result = .ok () →
        isOkE (setModelConfig st (.error e) modelId category dq iq).result = false)) ∧
    (((deleteModelConfig st (.ok ()) modelId).result = .ok () →
        (deleteModelConfig st (.ok ()) modelId).trace = [.write, .sync]) ∧
      ((deleteModelConfig st (.ok ()) modelId).result = .ok () →
        isOkE (deleteModelConfig st (.error e) modelId).result = false)) ∧
    (((setCategoryQuotas st (.ok ()) pq fq).result = .ok () →
        (setCategoryQuotas st (.ok ()) pq fq).trace = [.write, .sync]) ∧
      ((setCategoryQuotas st (.ok ()) pq fq).result = .ok () →
        isOkE (setCategoryQuotas st (.error e) pq fq).result = false)) ∧
    (((addWorkerKey st (.ok ()) apiKey description now).result = .ok () →
        (addWorkerKey st (.ok ()) apiKey description now).trace = [.write, .sync]) ∧
      ((addWorkerKey st (.ok ()) apiKey description now).result = .ok () →
        isOkE (addWorkerKey st (.error e) apiKey description now).result = false)) ∧
    (((updateWorkerKeySafety st (.ok ()) apiKey b).result = .ok () →
        (updateWorkerKeySafety st (.ok ()) apiKey b).trace = [.write, .sync]) ∧
      ((updateWorkerKeySafety st (.ok ()) apiKey b).result = .ok () →
        isOkE (updateWorkerKeySafety st (.error e) apiKey b).result = false)) ∧
    ((setGitHubConfig st (.ok ()) repo token dbPath encryptKey).trace = [.write, .sync] ∧
      (setGitHubConfig st (.error e) repo token dbPath encryptKey).result = .error e) := by
  intro st e key value modelId category dq iq pq fq apiKey description now repo token
    dbPath encryptKey b
  refine ⟨⟨?_, ?_⟩, ⟨?_, ?_⟩, ⟨?_, ?_⟩, ⟨?_, ?_⟩, ⟨?_, ?_⟩, ⟨?_, ?_⟩, ?_, ?_⟩
  · rw [setSetting]
    simp only [Bool.false_eq_true, if_false]
    rw [andSync_trace]
    rfl
  · rw [setSetting]
    simp only [Bool.false_eq_true, if_false]
    exact andSync_result_err _ _ _
  · intro h
    by_cases h1 : dailyQuotaBad category dq = true
    · rw [setModelConfig, if_pos h1] at h
      cases h
    · by_cases h2 : individualQuotaBad category iq = true
      · rw [setModelConfig, if_neg h1, if_pos h2] at h
        cases h
      · rw [setModelConfig, if_neg h1, if_neg h2, andSync_trace]
        rfl
  · intro h
    by_cases h1 : dailyQuotaBad category dq = true
    · rw [setModelConfig, if_pos h1] at h
      cases h
    · by_cases h2 : individualQuotaBad category iq = true
      · rw [setModelConfig, if_neg h1, if_pos h2] at h
        cases h
      · rw [setModelConfig, if_neg h1, if_neg h2, andSync_result_err]
        rfl
  · intro h
    by_cases hz : ((eraseA st.models_config modelId).2 == 0) = true
    · rw [deleteModelConfig] at h
      simp only [hz, if_true] at h
      cases h
    · rw [deleteModelConfig]
      simp only [hz, Bool.false_eq_true, if_false]
      rw [andSync_trace]
      rfl
  · intro h
    by_cases hz : ((eraseA st.models_config modelId).2 == 0) = true
    · rw [deleteModelConfig] at h
      simp only [hz, if_true] at h
      cases h
    · rw [deleteModelConfig]
      simp only [hz, Bool.false_eq_true, if_false]
      rw [andSync_result_err]
      rfl
  · intro h
    cases pq with
    | none => cases h
    | some p =>
      cases fq with
      | none => cases h
      | some f =>
        by_cases hc : (decide (p < 0) || decide (f < 0)) = true
        · rw [setCategoryQuotas] at h
          simp only [hc, if_true] at h
          cases h
        · rw [setCategoryQuotas]
          simp only [hc, Bool.false_eq_true, if_false]
          rw [setSetting]
          simp only [Bool.false_eq_true, if_false]
          rw [andSync_trace]
          rfl
  · intro h
    cases pq with
    | none => cases h
    | some p =>
      cases fq with
      | none => cases h
      | some f =>
        by_cases hc : (decide (p < 0) || decide (f < 0)) = true
        · rw [setCategoryQuotas] at h
          simp only [hc, if_true] at h
          cases h
        · rw [setCategoryQuotas]
          simp only [hc, Bool.false_eq_true, if_false]
          rw [setSetting]
          simp only [Bool.false_eq_true, if_false]
          rw [andSync_result_err]
          rfl
  · intro h
    by_cases hp : ((lookupA st.worker_keys apiKey).isSome : Prop)
    · rw [addWorkerKey, if_pos hp] at h
      cases h
    · rw [addWorkerKey, if_neg hp]
  · intro h
    by_cases hp : ((lookupA st.worker_keys apiKey).isSome : Prop)
    · rw [addWorkerKey, if_pos hp] at h
      cases h
    · rw [addWorkerKey, if_neg hp]
      rfl
  · intro h
    by_cases hz : (((updateA st.worker_keys apiKey
        (fun r => { r with safety_enabled := some (if b then 1 else 0) })).2 == 0) : Prop)
    · rw [updateWorkerKeySafety] at h
      simp only [if_pos hz] at h
      cases h
    · rw [updateWorkerKeySafety]
      simp only [if_neg hz]
      rw [andSync_trace]
      rfl
  · intro h
    by_cases hz : (((updateA st.worker_keys apiKey
        (fun r => { r with safety_enabled := some (if b then 1 else 0) })).2 == 0) : Prop)
    · rw [updateWorkerKeySafety] at h
      simp only [if_pos hz] at h
      cases h
    · rw [updateWorkerKeySafety]
      simp only [if_neg hz]
      rw [andSync_result_err]
      rfl
  · rw [setGitHubConfig.eq_def, setSetting]
    simp only [Bool.false_eq_true, if_false]
    rw [andSync_trace]
    rfl
  · rw [setGitHubConfig.eq_def, setSetting]
    simp only [Bool.false_eq_true, if_false]
    exact andSync_result_err _ _ _

/-- C1 amended witness: concrete successful runs of each synced mutation
show the write-then-sync trace, and a failing sync makes the same
mutation fail. -/
theorem C1_amended_write_then_sync_witness :
    (setSetting ⟨[], [], []⟩ (.ok ()) "k" (.vstr "v") false).trace = [.write, .sync] ∧
    (setSetting ⟨[], [], []⟩ (.error ⟨none, "down"⟩) "k" (.vstr "v") false).result
      = .error ⟨none, "down"⟩ ∧
    (setModelConfig ⟨[], [], []⟩ (.ok ()) "m" "Pro" none none).trace = [.write, .sync] ∧
    (deleteModelConfig ⟨[], [("m", ⟨"Pro", none, none⟩)], []⟩ (.ok ()) "m").trace
      = [.write, .sync] ∧
    (setCategoryQuotas ⟨[], [], []⟩ (.ok ()) (some (mkRat 1 1)) (some (mkRat 2 1))).trace
      = [.write, .sync] ∧
    (addWorkerKey ⟨[], [], []⟩ (.ok ()) "K1" "" "t").trace = [.write, .sync] ∧
    isOkE (addWorkerKey ⟨[], [], []⟩ (.error ⟨none, "down"⟩) "K1" "" "t").result = false ∧
    (updateWorkerKeySafety ⟨[], [], [("K1", ⟨"", some 1, "t"⟩)]⟩ (.ok ()) "K1" false).trace
      = [.write, .sync] ∧
    (setGitHubConfig ⟨[], [], []⟩ (.ok ()) "u/r" "tok" "./database.db" none).trace
      = [.write, .sync] := by
  have h0 := C1_amended_write_then_sync ⟨[], [], []⟩ ⟨none, "down"⟩ "k" (.vstr "v")
    "m" "Pro" none none (some (mkRat 1 1)) (some (mkRat 2 1)) "K1" "" "t"
    "u/r" "tok" "./database.db" none false
  have h1 := C1_amended_write_then_sync ⟨[], [("m", ⟨"Pro", none, none⟩)], []⟩
    ⟨none, "down"⟩ "k" (.vstr "v") "m" "Pro" none none (some (mkRat 1 1))
    (some (mkRat 2 1)) "K1" "" "t" "u/r" "tok" "./database.db" none false
  have h2 := C1_amended_write_then_sync ⟨[], [], [("K1", ⟨"", some 1, "t"⟩)]⟩
    ⟨none, "down"⟩ "k" (.vstr "v") "m" "Pro" none none (some (mkRat 1 1))
    (some (mkRat 2 1)) "K1" "" "t" "u/r" "tok" "./database.db" none false
  exact ⟨h0.1.1, h0.1.2, h0.2.1.1 (by decide), h1.2.2.1.1 (by decide),
    h0.2.2.2.1.1 (by decide), h0.2.2.2.2.1.1 (by decide), h0.2.2.2.2.1.2 (by decide),
    h2.2.2.2.2.2.1.1 (by decide), h0.2.2.2.2.2.2.1⟩

end CS
